import Mathlib

/-!
Shallow embedding of `src/adoptium-jdk-dl.py`, a one-shot utility that
resolves JDK builds from the Adoptium catalog, downloads them, verifies a
SHA-256 checksum and extracts the archive.  Network, the filesystem and the
hashlib digest are external capabilities; they are modelled as explicit
parameters (an `Env` record of oracles for the orchestrator, an abstract
digest function `H` for the verifier), while every decision the Python code
itself makes (dispatching, dict construction, control flow, error
propagation) is translated directly from the source.
-/

/-- Python `str.endswith(t)`: `t` is a suffix of `s`. -/
def strEndsWith (s t : String) : Bool :=
  List.isSuffixOf t.data s.data

/-- Python `str.startswith(t)`: `t` is a prefix of `s`. -/
def strStartsWith (s t : String) : Bool :=
  List.isPrefixOf t.data s.data

/-- Everything of the char list up to and including the last `'/'`
(Python `p[:p.rfind('/') + 1]`), empty when there is no slash. -/
def headUptoLastSlash : List Char → List Char
  | [] => []
  | c :: rest =>
    if rest.contains '/' then c :: headUptoLastSlash rest
    else if c = '/' then ['/'] else []

/-- Python `str.rstrip('/')` on a char list. -/
def rstripSlashes (cs : List Char) : List Char :=
  (cs.reverse.dropWhile (fun c => c == '/')).reverse

/-- Python `os.path.dirname` (posixpath): the part before the last slash,
with trailing slashes stripped unless the head is empty or all slashes. -/
def dirname (p : String) : String :=
  let head := headUptoLastSlash p.data
  if head.isEmpty || head.all (fun c => c == '/') then String.mk head
  else String.mk (rstripSlashes head)

/-- Python `os.path.join(a, b)` (posixpath, two arguments): `b` if `b` is
absolute, `a ++ b` if `a` is empty or ends with a slash, else
`a ++ "/" ++ b`. -/
def joinPath (a b : String) : String :=
  if strStartsWith b "/" then b
  else if a = "" || strEndsWith a "/" then a ++ b
  else a ++ "/" ++ b

/-- Value of one hexadecimal digit, as accepted by Python's hex codec
(`codecs.decode(s, 'hex')` / `binascii.unhexlify`). -/
def hexDigitVal (c : Char) : Option Nat :=
  if '0' ≤ c ∧ c ≤ '9' then some (c.toNat - '0'.toNat)
  else if 'a' ≤ c ∧ c ≤ 'f' then some (c.toNat - 'a'.toNat + 10)
  else if 'A' ≤ c ∧ c ≤ 'F' then some (c.toNat - 'A'.toNat + 10)
  else none

/-- Hex decoding of a char list to bytes; fails (like Python's
`binascii.Error`) on an odd number of digits or a non-hex character. -/
def hexDecodeList : List Char → Option (List Nat)
  | [] => some []
  | [_] => none
  | c1 :: c2 :: rest =>
    match hexDigitVal c1, hexDigitVal c2, hexDecodeList rest with
    | some hi, some lo, some bs => some ((16 * hi + lo) :: bs)
    | _, _, _ => none

/-- Python `codecs.decode(checksum, 'hex')`. -/
def hexDecode (s : String) : Option (List Nat) :=
  hexDecodeList s.data

/-- Lower-case hex digit for a value below 16. -/
def hexDigitChar (n : Nat) : Char :=
  if n < 10 then Char.ofNat (Char.toNat '0' + n)
  else Char.ofNat (Char.toNat 'a' + n - 10)

/-- Lower-case hex encoding of a byte list (as `hashlib`'s `hexdigest`
would print it); used to state the round-trip property. -/
def hexEncode (bs : List Nat) : String :=
  String.mk (bs.foldr
    (fun b acc => hexDigitChar (b / 16 % 16) :: hexDigitChar (b % 16) :: acc) [])

deriving instance DecidableEq for Except

/-- Structural worker for `readChunks`; the fuel starts at the length of
the byte stream, which bounds the number of reads. -/
def readChunksFuel : Nat → List Nat → List (List Nat)
  | _, [] => []
  | 0, _ :: _ => []
  | fuel + 1, b :: rest =>
    (b :: rest).take 8192 :: readChunksFuel fuel ((b :: rest).drop 8192)

/-- The read loop `while chunk := asset.read(8192)` of `verify_asset`:
the file's byte stream cut into chunks of at most 8192 bytes. -/
def readChunks (l : List Nat) : List (List Nat) :=
  readChunksFuel l.length l

/-- The state transition of `h.update(chunk)` on a `hashlib` object: the
absorbed byte stream grows by the chunk.  The digest of an object is the
digest function applied to the absorbed stream. -/
def hashUpdate (state chunk : List Nat) : List Nat :=
  state ++ chunk

/-- Digest produced by feeding `content` chunkwise (8192 bytes at a time,
as `verify_asset` does) into a fresh hash object; `H` is the SHA-256
digest function of `hashlib`, external to the repository and therefore a
parameter of the embedding. -/
def sha256_stream (H : List Nat → List Nat) (content : List Nat) : List Nat :=
  H ((readChunks content).foldl hashUpdate [])

/-- Embedding of `verify_asset`: decode the declared checksum from hex
(`codecs.decode(asset['checksum'], 'hex')`, `none` when Python would raise),
hash the package file in 8192-byte chunks, and compare
`checksum == h.digest()` byte-for-byte. -/
def verify_asset (H : List Nat → List Nat) (checksum : String)
    (content : List Nat) : Option Bool :=
  match hexDecode checksum with
  | none => none
  | some decoded => some (decide (decoded = sha256_stream H content))

/-- Failure modes of the run, one constructor per `raise` site (plus
Python's own `KeyError` for a missing dict key and a catch-all for
network errors inside the opaque HTTP layer). -/
inductive RunError
  | unsupportedArchitecture (got : String)
  | catalogEmpty
  | keyError (key : String)
  | checksumMismatch (version : String)
  | netError (msg : String)
  deriving DecidableEq

/-- Selection logic of `fetch_adoptium` on the parsed catalog array: raise
`"no adoptium jdk/jre assets found"` when `len(data) <= 0`, otherwise
return `data[-1]`, the last element. -/
def resolveLatest {α : Type} (data : List α) : Except RunError α :=
  if h : data.length ≤ 0 then Except.error RunError.catalogEmpty
  else Except.ok (data.getLast (by
    intro hnil
    exact h (by simp [hnil])))

/-- Error modes of `extract_asset`: the `ValueError("unexpected asset
archive: ...")` raised on an unrecognised suffix, the `AttributeError`
raised when `root_dirname` is `None` (`None.name`), and a catch-all for
the tar library's own failures. -/
inductive ExtractError
  | unsupportedArchive (name : String)
  | attributeErrorNoDir
  | otherError (msg : String)
  deriving DecidableEq

/-- The decompression scheme passed to `tarfile.open`: `'r:gz'` or
`'r:bz2'`. -/
inductive TarMode
  | gz
  | bz2
  deriving DecidableEq

/-- One member of a tar archive as `extract_asset` sees it: its name and
whether `x.isdir()` holds. -/
structure TarMember where
  name : String
  isdir : Bool
  deriving DecidableEq

/-- Filesystem side effect of the extractor: `archive.extractall(dest)`
extracting every member of the archive into `dest`. -/
inductive FsEffect
  | extractall (dest : String) (members : List TarMember)
  deriving DecidableEq

/-- Suffix dispatch of `extract_asset`, exactly as written in the source:
`endswith('.tar.gz') or endswith('.tgz')` selects gzip, otherwise
`endswith('tar.bz2') or endswith('.tbz')` (note: no dot before `tar.bz2`
in the source) selects bzip2, otherwise the archive is unsupported. -/
def archive_mode (asset_package : String) : Option TarMode :=
  if strEndsWith asset_package ".tar.gz" || strEndsWith asset_package ".tgz" then
    some TarMode.gz
  else if strEndsWith asset_package "tar.bz2" || strEndsWith asset_package ".tbz" then
    some TarMode.bz2
  else none

/-- Body of `extract_asset` after a successful `tarfile.open`: compute the
parent directory of the archive, find the first member that is a
directory, run `extractall` into the parent directory (this side effect
happens whether or not a directory member exists), then return
`os.path.join(asset_dir, root_dirname.name)` — an `AttributeError` when no
directory member was found, since `root_dirname` is then `None`. -/
def extract_tar (asset_package : String) (members : List TarMember) :
    List FsEffect × Except ExtractError String :=
  let asset_dir := dirname asset_package
  let rootdir := members.find? (fun x => x.isdir)
  ([FsEffect.extractall asset_dir members],
   match rootdir with
   | some r => Except.ok (joinPath asset_dir r.name)
   | none => Except.error ExtractError.attributeErrorNoDir)

/-- Embedding of `extract_asset`: dispatch on the filename suffix, raising
`ValueError` (with no filesystem effect) when no scheme matches, and
otherwise extract.  The parsed member list of the archive stands in for
the opened tar file; the result pairs the filesystem effects performed
with the returned path or raised error. -/
def extract_asset (asset_package : String) (members : List TarMember) :
    List FsEffect × Except ExtractError String :=
  match archive_mode asset_package with
  | some _ => extract_tar asset_package members
  | none => ([], Except.error (ExtractError.unsupportedArchive asset_package))

/-- Python dict with string keys and values, as an insertion-ordered
association list (the asset dicts built by `get_jdk` never hold duplicate
keys). -/
abbrev Dict := List (String × String)

/-- Python dict assignment `d[k] = v`: replace in place when the key
exists, else append at the end. -/
def dictSet : Dict → String → String → Dict
  | [], k, v => [(k, v)]
  | (k', v') :: rest, k, v =>
    if k' = k then (k, v) :: rest else (k', v') :: dictSet rest k v

/-- Python `d.get(k)`: the value at `k`, or `None`. -/
def dictGet? : Dict → String → Option String
  | [], _ => none
  | (k', v) :: rest, k => if k' = k then some v else dictGet? rest k

/-- Lookup with default, for keys known to be present. -/
def dictGetD (d : Dict) (k : String) : String :=
  (dictGet? d k).getD ""

/-- The keys of a dict, in order; these are the fields of the emitted
JSON object. -/
def dictKeys (d : Dict) : List String :=
  d.map Prod.fst

/-- The nested `binary.package` object of one catalog entry.  `name` and
`link` are required by the catalog schema; `checksum` is read with
`.get` (absence is tolerated) and `signature_link` with `['...']`
(absence raises `KeyError`), so both are modelled as optional. -/
structure BinaryPackage where
  name : String
  checksum : Option String
  link : String
  signature_link : Option String
  deriving DecidableEq

/-- External capabilities of the pipeline, as oracles: `catalog` is
`fetch_adoptium` composed with the `['binary']['package']` access (network
plus JSON parsing), `tmpdir` names the `tempfile.TemporaryDirectory` for a
version, `download` is `download_asset` (url and directory to local path,
or a raised error), `verify` is the boolean outcome of `verify_asset` on a
declared checksum and a downloaded package path, and `extract` is the
outcome of `extract_asset` on the persisted archive path. -/
structure Env where
  catalog : String → String → Except RunError BinaryPackage
  tmpdir : String → String
  download : String → String → Except RunError String
  verify : String → String → Bool
  extract : String → Except ExtractError String

/-- The body of `get_jdk`'s loop for one version: fetch the catalog entry,
skip (returning `none`) when `.get('checksum')` is `None`, otherwise build
the asset dict in source order (`name`, `checksum`, then `signature` from
the unconditional `java_package['signature_link']` access — a `KeyError`
when absent — then `package`), verify, raise `checksum mismatch` on
failure, and finally set `path` to the destination copy of the package. -/
def processVersion (env : Env) (asset_dir arch ver : String) :
    Except RunError (Option Dict) :=
  match env.catalog ver arch with
  | Except.error e => Except.error e
  | Except.ok java_package =>
    match java_package.checksum with
    | none => Except.ok none
    | some chk =>
      let tmp := env.tmpdir ver
      let d := dictSet (dictSet [] "name" java_package.name) "checksum" chk
      match java_package.signature_link with
      | none => Except.error (RunError.keyError "signature_link")
      | some sigLink =>
        match env.download sigLink tmp with
        | Except.error e => Except.error e
        | Except.ok sigPath =>
          let d := dictSet d "signature" sigPath
          match env.download java_package.link tmp with
          | Except.error e => Except.error e
          | Except.ok pkgPath =>
            let d := dictSet d "package" pkgPath
            if env.verify (dictGetD d "checksum") (dictGetD d "package") then
              Except.ok (some (dictSet d "path"
                (joinPath asset_dir (dictGetD d "name"))))
            else Except.error (RunError.checksumMismatch ver)

/-- The `for ver in java_versions` loop of `get_jdk`: any raised error
aborts the whole loop (and loses the assets gathered so far), a skipped
version contributes nothing, a processed version appends its dict. -/
def get_jdk_loop (env : Env) (asset_dir arch : String) :
    List String → Except RunError (List Dict)
  | [] => Except.ok []
  | v :: rest =>
    match processVersion env asset_dir arch v with
    | Except.error e => Except.error e
    | Except.ok none => get_jdk_loop env asset_dir arch rest
    | Except.ok (some a) =>
      match get_jdk_loop env asset_dir arch rest with
      | Except.error e => Except.error e
      | Except.ok as => Except.ok (a :: as)

/-- The raw-machine-to-catalog-architecture dict of `system_facts`,
queried with `.get(machine, None)`. -/
def architecture_map (machine : String) : Option String :=
  if machine = "AMD64" then some "x64"
  else if machine = "x86_64" then some "x64"
  else if machine = "i386" then some "x32"
  else if machine = "x86" then some "x86"
  else none

/-- The hardcoded version list of `get_jdk`. -/
def java_versions : List String :=
  ["11", "16"]

/-- Embedding of `get_jdk`: resolve the architecture from the raw machine
identifier and abort with the `unsupported architecture` message (which
formats the resolved value, hence the string `"None"`) when the mapping
has no entry, before anything else runs; otherwise drive the loop over the
hardcoded versions. -/
def get_jdk (env : Env) (machine asset_dir : String) :
    Except RunError (List Dict) :=
  match architecture_map machine with
  | none => Except.error (RunError.unsupportedArchitecture "None")
  | some arch => get_jdk_loop env asset_dir arch java_versions

/-- The extraction loop of `__main__`: for each downloaded asset, try to
extract; on any exception print it and continue, dropping the asset;
on success replace the asset's `path` with the extracted root and keep
it. -/
def extract_all (env : Env) : List Dict → List Dict
  | [] => []
  | a :: rest =>
    match env.extract (dictGetD a "path") with
    | Except.error _ => extract_all env rest
    | Except.ok newPath => dictSet a "path" newPath :: extract_all env rest

/-- The `__main__` pipeline after argument parsing: run `get_jdk` (an
uncaught exception there aborts the process before any output is
written), then run the extraction loop and emit the surviving assets as
the JSON output. -/
def main_run (env : Env) (machine asset_dir : String) :
    Except RunError (List Dict) :=
  match get_jdk env machine asset_dir with
  | Except.error e => Except.error e
  | Except.ok assets => Except.ok (extract_all env assets)

/-- Sample catalog entry with every field present, for concrete runs. -/
def pkgC : BinaryPackage :=
  { name := "jdk.tar.gz", checksum := some "00",
    link := "pkg-url", signature_link := some "sig-url" }

/-- Sample environment in which every step of the pipeline succeeds. -/
def envC : Env :=
  { catalog := fun _ _ => Except.ok pkgC,
    tmpdir := fun _ => "/tmp",
    download := fun url dir => Except.ok (joinPath dir url),
    verify := fun _ _ => true,
    extract := fun p => Except.ok (p ++ "-root") }

/-- Sample catalog entry whose `checksum` field is absent. -/
def pkgSkip : BinaryPackage :=
  { name := "jdk.tar.gz", checksum := none,
    link := "pkg-url", signature_link := some "sig-url" }

/-- Environment whose catalog entries carry no checksum. -/
def envSkip : Env :=
  { envC with catalog := fun _ _ => Except.ok pkgSkip }

/-- Environment in which checksum verification fails. -/
def envBad : Env :=
  { envC with verify := fun _ _ => false }

/-- Sample catalog entry with a checksum but no `signature_link` field. -/
def pkgNoSig : BinaryPackage :=
  { name := "jdk.tar.gz", checksum := some "00",
    link := "pkg-url", signature_link := none }

/-- Environment whose catalog entries lack a signature link. -/
def envNoSig : Env :=
  { envC with catalog := fun _ _ => Except.ok pkgNoSig }

/-- The asset dict emitted for each version of a run under `envC`. -/
def dOutC : Dict :=
  [("name", "jdk.tar.gz"), ("checksum", "00"),
   ("signature", "/tmp/sig-url"), ("package", "/tmp/pkg-url"),
   ("path", "/dst/jdk.tar.gz-root")]

/-- Environment with per-version archive names in which extraction of the
version-11 archive fails while version 16 extracts fine. -/
def envMixed : Env :=
  { envC with
    catalog := fun v _ => Except.ok
      { name := "jdk-" ++ v ++ ".tar.gz", checksum := some "00",
        link := "pkg-url", signature_link := some "sig-url" },
    extract := fun p =>
      if p = "/dst/jdk-11.tar.gz" then Except.error (ExtractError.otherError "bad tar")
      else Except.ok (p ++ "-root") }

/-- The version-11 asset dict of a run under `envMixed`, before
extraction. -/
def dMix11 : Dict :=
  [("name", "jdk-11.tar.gz"), ("checksum", "00"),
   ("signature", "/tmp/sig-url"), ("package", "/tmp/pkg-url"),
   ("path", "/dst/jdk-11.tar.gz")]

/-- The version-16 asset dict of a run under `envMixed`, before
extraction. -/
def dMix16 : Dict :=
  [("name", "jdk-16.tar.gz"), ("checksum", "00"),
   ("signature", "/tmp/sig-url"), ("package", "/tmp/pkg-url"),
   ("path", "/dst/jdk-16.tar.gz")]

theorem readChunksFuel_flatten :
    ∀ (fuel : Nat) (l : List Nat), l.length ≤ fuel →
      (readChunksFuel fuel l).flatten = l := by
  intro fuel
  induction fuel with
  | zero =>
    intro l hl
    cases l with
    | nil => rfl
    | cons b rest => simp at hl
  | succ n ih =>
    intro l hl
    cases l with
    | nil => rfl
    | cons b rest =>
      have hlen : ((b :: rest).drop 8192).length ≤ n := by
        rw [List.length_drop]
        simp only [List.length_cons] at hl ⊢
        omega
      rw [readChunksFuel, List.flatten_cons, ih _ hlen, List.take_append_drop]

theorem readChunks_join (l : List Nat) : (readChunks l).flatten = l :=
  readChunksFuel_flatten l.length l (Nat.le_refl _)

theorem foldl_hashUpdate (L : List (List Nat)) :
    ∀ acc : List Nat, L.foldl hashUpdate acc = acc ++ L.flatten := by
  induction L with
  | nil => intro acc; simp
  | cons c rest ih =>
    intro acc
    simp only [List.foldl_cons, List.flatten_cons, ih, hashUpdate, List.append_assoc]

theorem sha256_stream_eq (H : List Nat → List Nat) (content : List Nat) :
    sha256_stream H content = H content := by
  unfold sha256_stream
  rw [foldl_hashUpdate, List.nil_append, readChunks_join]

theorem hexDigit_roundtrip :
    ∀ n, n < 16 → hexDigitVal (hexDigitChar n) = some n := by
  decide

theorem hexDecode_hexEncode (bs : List Nat) (hb : ∀ b ∈ bs, b < 256) :
    hexDecode (hexEncode bs) = some bs := by
  induction bs with
  | nil => rfl
  | cons b rest ih =>
    have hblt : b < 256 := hb b (List.mem_cons_self b rest)
    have hrest : ∀ x ∈ rest, x < 256 :=
      fun x hx => hb x (List.mem_cons_of_mem b hx)
    have hhi : b / 16 % 16 < 16 := Nat.mod_lt _ (by decide)
    have hlo : b % 16 < 16 := Nat.mod_lt _ (by decide)
    have hmod : b / 16 % 16 = b / 16 := by
      apply Nat.mod_eq_of_lt
      exact Nat.div_lt_of_lt_mul hblt
    unfold hexDecode hexEncode at *
    simp only [String.data] at *
    rw [List.foldr_cons]
    rw [hexDecodeList]
    rw [hexDigit_roundtrip _ hhi, hexDigit_roundtrip _ hlo]
    have : hexDecodeList (List.foldr
        (fun b acc => hexDigitChar (b / 16 % 16) :: hexDigitChar (b % 16) :: acc)
        [] rest) = some rest := ih hrest
    rw [this]
    show some ((16 * (b / 16 % 16) + b % 16) :: rest) = some (b :: rest)
    rw [hmod, Nat.div_add_mod]

/-- C1: `verify_asset` returns true iff the digest computed over the full
file contents (fed to the hash in 8192-byte chunks) equals the hex-decoded
declared checksum byte-for-byte; for matching content (a checksum that is
the hex encoding of the content's digest) it returns true; and for a
single-byte mutation of the content it returns false whenever the mutated
content's digest differs from the original digest — `H` is the external
SHA-256 digest function of `hashlib`, over which the embedding is
parametric. -/
theorem verify_asset_spec :
    (∀ (H : List Nat → List Nat) (checksum : String) (content decoded : List Nat),
        hexDecode checksum = some decoded →
        (verify_asset H checksum content = some true ↔ H content = decoded))
    ∧ (∀ (H : List Nat → List Nat) (content : List Nat),
        (∀ b ∈ H content, b < 256) →
        verify_asset H (hexEncode (H content)) content = some true)
    ∧ (∀ (H : List Nat → List Nat) (checksum : String) (content : List Nat)
        (i b : Nat),
        hexDecode checksum = some (H content) →
        H (content.set i b) ≠ H content →
        verify_asset H checksum (content.set i b) = some false) := by
  refine ⟨?_, ?_, ?_⟩
  · intro H checksum content decoded h
    unfold verify_asset
    rw [h, sha256_stream_eq]
    simp [eq_comm]
  · intro H content hb
    unfold verify_asset
    rw [hexDecode_hexEncode _ hb, sha256_stream_eq]
    simp
  · intro H checksum content i b h hne
    unfold verify_asset
    rw [h, sha256_stream_eq]
    have hne' : H content ≠ H (content.set i b) := fun heq => hne heq.symm
    simp [hne']

/-- Witness for C1 at a concrete digest function, checksum and content:
mutating byte 0 of `[1, 2, 3]` to `5` makes verification fail. -/
theorem verify_asset_spec_witness :
    verify_asset (fun l => [(l.foldl Nat.add 0) % 256]) "06"
      (([1, 2, 3] : List Nat).set 0 5) = some false :=
  verify_asset_spec.2.2 (fun l => [(l.foldl Nat.add 0) % 256]) "06"
    [1, 2, 3] 0 5 (by decide) (by decide)

/-- C2: on an empty catalog array `resolveLatest` fails with the
catalog-empty error, and on an array of N > 0 elements it returns element
N-1, the last element — whose index differs from 0 as soon as the array
has at least two elements. -/
theorem resolveLatest_spec :
    (∀ (α : Type), resolveLatest ([] : List α) = Except.error RunError.catalogEmpty)
    ∧ (∀ (α : Type) (data : List α) (h : data ≠ []),
        resolveLatest data = Except.ok (data.getLast h)
        ∧ data.getLast h =
            data.get ⟨data.length - 1,
              Nat.sub_lt (List.length_pos.mpr h) Nat.one_pos⟩
        ∧ (2 ≤ data.length → data.length - 1 ≠ 0)) := by
  constructor
  · intro α
    rfl
  · intro α data h
    refine ⟨?_, ?_, ?_⟩
    · have hlen : ¬ data.length ≤ 0 := by
        have := List.length_pos.mpr h
        omega
      unfold resolveLatest
      rw [dif_neg hlen]
    · rw [List.getLast_eq_getElem]
      simp [List.get_eq_getElem]
    · intro h2
      omega

/-- Witness for C2 on the concrete array `[10, 20, 30]`: the selected
entry is `30`, the element at index 2 = N-1. -/
theorem resolveLatest_spec_witness :
    resolveLatest [10, 20, 30] = Except.ok (([10, 20, 30] : List Nat).getLast (by decide)) :=
  (resolveLatest_spec.2 Nat [10, 20, 30] (by decide)).1

/-- C4 counterexample: the filename `"tar.bz2"` ends in none of the four
suffixes `.tar.gz`, `.tgz`, `.tar.bz2`, `.tbz` named by the claim, yet
`extract_asset` does not raise `UnsupportedArchiveFormat`: the source
tests `endswith('tar.bz2')` without the leading dot, so this archive is
dispatched to bzip2 tar and extracted. -/
theorem extract_dispatch_dotless_bz2 :
    strEndsWith "tar.bz2" ".tar.gz" = false
    ∧ strEndsWith "tar.bz2" ".tgz" = false
    ∧ strEndsWith "tar.bz2" ".tar.bz2" = false
    ∧ strEndsWith "tar.bz2" ".tbz" = false
    ∧ archive_mode "tar.bz2" = some TarMode.bz2
    ∧ extract_asset "tar.bz2" [TarMember.mk "jdk" true]
        = ([FsEffect.extractall "" [TarMember.mk "jdk" true]], Except.ok "jdk") := by
  decide

/-- C4 amended: `.tar.gz`/`.tgz` select gzip tar; otherwise a filename
ending in the dotless `tar.bz2` or in `.tbz` selects bzip2 tar; and for
every filename matching neither test the call raises (`ValueError`,
the `UnsupportedArchiveFormat` failure) without attempting extraction
(no filesystem effect). -/
theorem extract_dispatch_spec :
    (∀ p : String, (strEndsWith p ".tar.gz" || strEndsWith p ".tgz") = true →
        archive_mode p = some TarMode.gz)
    ∧ (∀ p : String, (strEndsWith p ".tar.gz" || strEndsWith p ".tgz") = false →
        (strEndsWith p "tar.bz2" || strEndsWith p ".tbz") = true →
        archive_mode p = some TarMode.bz2)
    ∧ (∀ (p : String) (members : List TarMember),
        (strEndsWith p ".tar.gz" || strEndsWith p ".tgz") = false →
        (strEndsWith p "tar.bz2" || strEndsWith p ".tbz") = false →
        extract_asset p members
          = ([], Except.error (ExtractError.unsupportedArchive p))) := by
  refine ⟨?_, ?_, ?_⟩
  · intro p h
    simp [archive_mode, h]
  · intro p h1 h2
    simp [archive_mode, h1, h2]
  · intro p members h1 h2
    simp [extract_asset, archive_mode, h1, h2]

/-- Witness for the amended C4 at three concrete filenames, one per
branch of the dispatch. -/
theorem extract_dispatch_spec_witness :
    archive_mode "jdk.tar.gz" = some TarMode.gz
    ∧ archive_mode "jdk.tbz" = some TarMode.bz2
    ∧ extract_asset "jdk.zip" []
        = ([], Except.error (ExtractError.unsupportedArchive "jdk.zip")) :=
  ⟨extract_dispatch_spec.1 "jdk.tar.gz" (by decide),
   extract_dispatch_spec.2.1 "jdk.tbz" (by decide) (by decide),
   extract_dispatch_spec.2.2 "jdk.zip" [] (by decide) (by decide)⟩

/-- C5: on a supported-suffix archive containing at least one directory
member, `extract_asset` extracts all members into the parent directory of
the archive file (sibling-level, a single `extractall` into `dirname p`)
and returns the join of that parent directory with the name of the first
member classified as a directory. -/
theorem extract_asset_root_dir :
    ∀ (p : String) (members : List TarMember) (m : TarMode) (r : TarMember),
      archive_mode p = some m →
      members.find? (fun x => x.isdir) = some r →
      extract_asset p members
        = ([FsEffect.extractall (dirname p) members],
           Except.ok (joinPath (dirname p) r.name)) := by
  intro p members m r hm hr
  unfold extract_asset
  rw [hm]
  simp [extract_tar, hr]

/-- Witness for C5: a gzip tar under `/tmp` whose second member is the
first directory member; everything is extracted beside the archive and
the returned root is `/tmp/jdk-11`. -/
theorem extract_asset_root_dir_witness :
    extract_asset "/tmp/jdk.tar.gz"
      [TarMember.mk "readme" false, TarMember.mk "jdk-11" true]
      = ([FsEffect.extractall "/tmp"
            [TarMember.mk "readme" false, TarMember.mk "jdk-11" true]],
         Except.ok "/tmp/jdk-11") := by
  rw [extract_asset_root_dir "/tmp/jdk.tar.gz"
    [TarMember.mk "readme" false, TarMember.mk "jdk-11" true]
    TarMode.gz (TarMember.mk "jdk-11" true) (by decide) (by decide)]
  decide

/-- C10: on a supported-suffix archive with no directory member the
failure is not atomic — the `extractall` into the archive's parent
directory still happens (the effect list is non-empty) and only then does
the call fail with the `AttributeError` from `root_dirname.name`. -/
theorem extract_nonatomic_failure :
    ∀ (p : String) (members : List TarMember) (m : TarMode),
      archive_mode p = some m →
      members.find? (fun x => x.isdir) = none →
      extract_asset p members
        = ([FsEffect.extractall (dirname p) members],
           Except.error ExtractError.attributeErrorNoDir)
      ∧ ([FsEffect.extractall (dirname p) members] : List FsEffect) ≠ [] := by
  intro p members m hm hr
  constructor
  · unfold extract_asset
    rw [hm]
    simp [extract_tar, hr]
  · simp

/-- Witness for C10: a `.tgz` archive holding a single plain file is
extracted into `/tmp` and the call then fails. -/
theorem extract_nonatomic_failure_witness :
    extract_asset "/tmp/jdk.tgz" [TarMember.mk "f" false]
      = ([FsEffect.extractall "/tmp" [TarMember.mk "f" false]],
         Except.error ExtractError.attributeErrorNoDir) := by
  rw [(extract_nonatomic_failure "/tmp/jdk.tgz" [TarMember.mk "f" false]
    TarMode.gz (by decide) (by decide)).1]
  decide

theorem asset_dict_explicit (n chk sp pp : String) :
    dictSet (dictSet (dictSet (dictSet [] "name" n) "checksum" chk)
      "signature" sp) "package" pp
      = [("name", n), ("checksum", chk), ("signature", sp), ("package", pp)] := by
  simp [dictSet]

theorem asset_dict_lookups (n chk sp pp : String) :
    dictGetD [("name", n), ("checksum", chk), ("signature", sp), ("package", pp)]
        "checksum" = chk
    ∧ dictGetD [("name", n), ("checksum", chk), ("signature", sp), ("package", pp)]
        "package" = pp
    ∧ dictGetD [("name", n), ("checksum", chk), ("signature", sp), ("package", pp)]
        "name" = n := by
  refine ⟨?_, ?_, ?_⟩ <;> simp [dictGetD, dictGet?]

theorem asset_dict_set_path (n chk sp pp v : String) :
    dictSet [("name", n), ("checksum", chk), ("signature", sp), ("package", pp)]
        "path" v
      = [("name", n), ("checksum", chk), ("signature", sp), ("package", pp),
         ("path", v)] := by
  simp [dictSet]

theorem processVersion_skip (env : Env) (dir arch v : String)
    (pkg : BinaryPackage) (hcat : env.catalog v arch = Except.ok pkg)
    (hchk : pkg.checksum = none) :
    processVersion env dir arch v = Except.ok none := by
  unfold processVersion
  rw [hcat]
  dsimp only
  rw [hchk]

theorem processVersion_nosig (env : Env) (dir arch v : String)
    (pkg : BinaryPackage) (chk : String)
    (hcat : env.catalog v arch = Except.ok pkg)
    (hchk : pkg.checksum = some chk)
    (hsl : pkg.signature_link = none) :
    processVersion env dir arch v
      = Except.error (RunError.keyError "signature_link") := by
  unfold processVersion
  rw [hcat]
  dsimp only
  rw [hchk]
  dsimp only
  rw [hsl]

theorem processVersion_mismatch (env : Env) (dir arch v : String)
    (pkg : BinaryPackage) (chk sl sp pp : String)
    (hcat : env.catalog v arch = Except.ok pkg)
    (hchk : pkg.checksum = some chk)
    (hsl : pkg.signature_link = some sl)
    (hd1 : env.download sl (env.tmpdir v) = Except.ok sp)
    (hd2 : env.download pkg.link (env.tmpdir v) = Except.ok pp)
    (hv : env.verify chk pp = false) :
    processVersion env dir arch v
      = Except.error (RunError.checksumMismatch v) := by
  unfold processVersion
  rw [hcat]
  dsimp only
  rw [hchk]
  dsimp only
  rw [hsl]
  dsimp only
  rw [hd1]
  dsimp only
  rw [hd2]
  dsimp only
  rw [asset_dict_explicit,
    (asset_dict_lookups pkg.name chk sp pp).1,
    (asset_dict_lookups pkg.name chk sp pp).2.1, hv]
  rfl

theorem processVersion_ok (env : Env) (dir arch v : String)
    (pkg : BinaryPackage) (chk sl sp pp : String)
    (hcat : env.catalog v arch = Except.ok pkg)
    (hchk : pkg.checksum = some chk)
    (hsl : pkg.signature_link = some sl)
    (hd1 : env.download sl (env.tmpdir v) = Except.ok sp)
    (hd2 : env.download pkg.link (env.tmpdir v) = Except.ok pp)
    (hv : env.verify chk pp = true) :
    processVersion env dir arch v = Except.ok (some
      [("name", pkg.name), ("checksum", chk), ("signature", sp),
       ("package", pp), ("path", joinPath dir pkg.name)]) := by
  unfold processVersion
  rw [hcat]
  dsimp only
  rw [hchk]
  dsimp only
  rw [hsl]
  dsimp only
  rw [hd1]
  dsimp only
  rw [hd2]
  dsimp only
  rw [asset_dict_explicit,
    (asset_dict_lookups pkg.name chk sp pp).1,
    (asset_dict_lookups pkg.name chk sp pp).2.1,
    (asset_dict_lookups pkg.name chk sp pp).2.2, hv,
    asset_dict_set_path]
  rfl

/-- C3: the two checksum failure modes are asymmetric.  A version whose
catalog entry lacks the checksum field is skipped and the loop continues
exactly as if the version were absent; a version that fails integrity
verification aborts the entire loop with the checksum-mismatch error no
matter which versions remain, and an aborted `get_jdk` yields an aborted
run with no output at all. -/
theorem orchestrator_checksum_asymmetry :
    (∀ (env : Env) (dir arch v : String) (rest : List String)
        (pkg : BinaryPackage),
        env.catalog v arch = Except.ok pkg → pkg.checksum = none →
        get_jdk_loop env dir arch (v :: rest) = get_jdk_loop env dir arch rest)
    ∧ (∀ (env : Env) (dir arch v : String) (rest : List String)
        (pkg : BinaryPackage) (chk sl sp pp : String),
        env.catalog v arch = Except.ok pkg →
        pkg.checksum = some chk → pkg.signature_link = some sl →
        env.download sl (env.tmpdir v) = Except.ok sp →
        env.download pkg.link (env.tmpdir v) = Except.ok pp →
        env.verify chk pp = false →
        get_jdk_loop env dir arch (v :: rest)
          = Except.error (RunError.checksumMismatch v))
    ∧ (∀ (env : Env) (machine dir : String) (e : RunError),
        get_jdk env machine dir = Except.error e →
        main_run env machine dir = Except.error e) := by
  refine ⟨?_, ?_, ?_⟩
  · intro env dir arch v rest pkg hcat hchk
    simp only [get_jdk_loop]
    rw [processVersion_skip env dir arch v pkg hcat hchk]
  · intro env dir arch v rest pkg chk sl sp pp hcat hchk hsl hd1 hd2 hv
    simp only [get_jdk_loop]
    rw [processVersion_mismatch env dir arch v pkg chk sl sp pp
      hcat hchk hsl hd1 hd2 hv]
  · intro env machine dir e h
    unfold main_run
    rw [h]

/-- Witness for C3: under `envSkip` (checksum field absent) version 11 is
dropped and the loop continues to version 16; under `envBad` (verification
fails) the whole loop aborts with checksum-mismatch and the run produces
no output. -/
theorem orchestrator_checksum_asymmetry_witness :
    get_jdk_loop envSkip "/dst" "x64" ["11", "16"]
      = get_jdk_loop envSkip "/dst" "x64" ["16"]
    ∧ get_jdk_loop envBad "/dst" "x64" ["11", "16"]
      = Except.error (RunError.checksumMismatch "11")
    ∧ main_run envBad "x86_64" "/dst"
      = Except.error (RunError.checksumMismatch "11") :=
  ⟨orchestrator_checksum_asymmetry.1 envSkip "/dst" "x64" "11" ["16"]
      pkgSkip rfl rfl,
   orchestrator_checksum_asymmetry.2.1 envBad "/dst" "x64" "11" ["16"]
      pkgC "00" "sig-url" "/tmp/sig-url" "/tmp/pkg-url"
      rfl rfl rfl (by decide) (by decide) rfl,
   orchestrator_checksum_asymmetry.2.2 envBad "x86_64" "/dst"
      (RunError.checksumMismatch "11") (by decide)⟩

/-- C7: the platform resolver maps the raw machine identifiers `x86_64`
and `AMD64` to the same normalized token `x64`, and for every raw
identifier outside the fixed mapping both `get_jdk` and the whole run
fail with the unsupported-architecture error uniformly in the
environment — the result does not depend on the catalog, download,
verify or extract oracles, so no network interaction can have taken
place. -/
theorem platform_resolver_spec :
    architecture_map "x86_64" = some "x64"
    ∧ architecture_map "AMD64" = some "x64"
    ∧ (∀ m : String, architecture_map m = none →
        ∀ (env : Env) (dir : String),
          get_jdk env m dir
            = Except.error (RunError.unsupportedArchitecture "None")
          ∧ main_run env m dir
            = Except.error (RunError.unsupportedArchitecture "None")) := by
  refine ⟨by decide, by decide, ?_⟩
  intro m hm env dir
  constructor
  · unfold get_jdk
    rw [hm]
  · unfold main_run get_jdk
    rw [hm]

/-- Witness for C7 at the unmapped machine identifier `armv7l`. -/
theorem platform_resolver_spec_witness :
    get_jdk envC "armv7l" "/dst"
      = Except.error (RunError.unsupportedArchitecture "None")
    ∧ main_run envC "armv7l" "/dst"
      = Except.error (RunError.unsupportedArchitecture "None") :=
  platform_resolver_spec.2.2 "armv7l" (by decide) envC "/dst"

/-- C6: extraction failure is a soft skip.  The extraction loop equals an
order-preserving `filterMap` keeping exactly the assets whose extraction
succeeds (with `path` replaced by the extracted root); a failing asset at
the head is dropped and the loop continues on the rest; and whenever
`get_jdk` succeeds the run emits the (possibly partial) extracted result
set as its output. -/
theorem extraction_soft_skip :
    (∀ (env : Env) (assets : List Dict),
        extract_all env assets
          = assets.filterMap (fun a =>
              (env.extract (dictGetD a "path")).toOption.map
                (fun p => dictSet a "path" p)))
    ∧ (∀ (env : Env) (a : Dict) (rest : List Dict) (e : ExtractError),
        env.extract (dictGetD a "path") = Except.error e →
        extract_all env (a :: rest) = extract_all env rest)
    ∧ (∀ (env : Env) (machine dir : String) (assets : List Dict),
        get_jdk env machine dir = Except.ok assets →
        main_run env machine dir = Except.ok (extract_all env assets)) := by
  refine ⟨?_, ?_, ?_⟩
  · intro env assets
    induction assets with
    | nil => rfl
    | cons a rest ih =>
      simp only [extract_all, List.filterMap_cons]
      cases h : env.extract (dictGetD a "path") with
      | error e => simp [h, ih, Except.toOption]
      | ok p => simp [h, ih, Except.toOption]
  · intro env a rest e h
    simp only [extract_all]
    rw [h]
  · intro env machine dir assets h
    unfold main_run
    rw [h]

/-- Witness for C6 under `envMixed`: the version-11 archive fails to
extract and is dropped while the loop continues, and the run still emits
the partial result set. -/
theorem extraction_soft_skip_witness :
    extract_all envMixed [dMix11, dMix16] = extract_all envMixed [dMix16]
    ∧ main_run envMixed "x86_64" "/dst"
        = Except.ok (extract_all envMixed [dMix11, dMix16]) :=
  ⟨extraction_soft_skip.2.1 envMixed dMix11 [dMix16]
      (ExtractError.otherError "bad tar") (by decide),
   extraction_soft_skip.2.2 envMixed "x86_64" "/dst" [dMix11, dMix16]
      (by decide)⟩

/-- C8 counterexample: under `envNoSig` the catalog entry carries a
checksum but no `signature_link` field, and instead of the asset being
"still processed" the unconditional `java_package['signature_link']`
access raises `KeyError` and the whole run aborts with no output. -/
theorem missing_signature_link_aborts :
    get_jdk envNoSig "x86_64" "/dst"
      = Except.error (RunError.keyError "signature_link")
    ∧ main_run envNoSig "x86_64" "/dst"
      = Except.error (RunError.keyError "signature_link") := by
  decide

/-- C8 amended: the orchestrator reads the signature link
unconditionally.  When the catalog entry has no `signature_link` field
the version fails with `KeyError` (aborting the run) rather than being
processed; when the field is present the signature is downloaded and the
resulting local path is recorded in the asset's `signature` field, and
the package is processed as usual. -/
theorem signature_fetch_unconditional :
    (∀ (env : Env) (dir arch v : String) (pkg : BinaryPackage) (chk : String),
        env.catalog v arch = Except.ok pkg → pkg.checksum = some chk →
        pkg.signature_link = none →
        processVersion env dir arch v
          = Except.error (RunError.keyError "signature_link"))
    ∧ (∀ (env : Env) (dir arch v : String) (pkg : BinaryPackage)
        (chk sl sp pp : String),
        env.catalog v arch = Except.ok pkg → pkg.checksum = some chk →
        pkg.signature_link = some sl →
        env.download sl (env.tmpdir v) = Except.ok sp →
        env.download pkg.link (env.tmpdir v) = Except.ok pp →
        env.verify chk pp = true →
        processVersion env dir arch v = Except.ok (some
          [("name", pkg.name), ("checksum", chk), ("signature", sp),
           ("package", pp), ("path", joinPath dir pkg.name)])) := by
  constructor
  · intro env dir arch v pkg chk hcat hchk hsl
    exact processVersion_nosig env dir arch v pkg chk hcat hchk hsl
  · intro env dir arch v pkg chk sl sp pp hcat hchk hsl hd1 hd2 hv
    exact processVersion_ok env dir arch v pkg chk sl sp pp
      hcat hchk hsl hd1 hd2 hv

/-- Witness for the amended C8: under `envC` the signature at `sig-url`
is downloaded into the temporary directory and recorded, and the asset is
fully processed. -/
theorem signature_fetch_unconditional_witness :
    processVersion envC "/dst" "x64" "11" = Except.ok (some
      [("name", "jdk.tar.gz"), ("checksum", "00"),
       ("signature", "/tmp/sig-url"), ("package", "/tmp/pkg-url"),
       ("path", "/dst/jdk.tar.gz")]) := by
  rw [signature_fetch_unconditional.2 envC "/dst" "x64" "11" pkgC "00"
    "sig-url" "/tmp/sig-url" "/tmp/pkg-url" rfl rfl rfl
    (by decide) (by decide) rfl]
  decide

theorem dictKeys_set_of_mem (k v : String) :
    ∀ d : Dict, k ∈ dictKeys d → dictKeys (dictSet d k v) = dictKeys d := by
  intro d
  induction d with
  | nil => intro h; simp [dictKeys] at h
  | cons p rest ih =>
    intro h
    obtain ⟨k', v'⟩ := p
    unfold dictSet
    by_cases hk : k' = k
    · subst hk
      simp [dictKeys]
    · rw [if_neg hk]
      simp only [dictKeys, List.map_cons] at h ⊢
      cases h with
      | head => exact absurd rfl hk
      | tail _ hm =>
        have := ih hm
        simp only [dictKeys] at this
        rw [this]

theorem processVersion_keys (env : Env) (dir arch v : String) (d : Dict)
    (h : processVersion env dir arch v = Except.ok (some d)) :
    dictKeys d = ["name", "checksum", "signature", "package", "path"] := by
  unfold processVersion at h
  cases hcat : env.catalog v arch with
  | error e => rw [hcat] at h; cases h
  | ok pkg =>
    rw [hcat] at h
    dsimp only at h
    cases hchk : pkg.checksum with
    | none => rw [hchk] at h; simp at h
    | some chk =>
      rw [hchk] at h
      dsimp only at h
      cases hsl : pkg.signature_link with
      | none => rw [hsl] at h; cases h
      | some sl =>
        rw [hsl] at h
        dsimp only at h
        cases hd1 : env.download sl (env.tmpdir v) with
        | error e => rw [hd1] at h; cases h
        | ok sp =>
          rw [hd1] at h
          dsimp only at h
          cases hd2 : env.download pkg.link (env.tmpdir v) with
          | error e => rw [hd2] at h; cases h
          | ok pp =>
            rw [hd2] at h
            dsimp only at h
            rw [asset_dict_explicit] at h
            split at h
            · simp only [Except.ok.injEq, Option.some.injEq] at h
              subst h
              rw [(asset_dict_lookups pkg.name chk sp pp).2.2,
                asset_dict_set_path]
              rfl
            · cases h

theorem get_jdk_loop_keys (env : Env) (dir arch : String) :
    ∀ (vs : List String) (assets : List Dict),
      get_jdk_loop env dir arch vs = Except.ok assets →
      ∀ a ∈ assets,
        dictKeys a = ["name", "checksum", "signature", "package", "path"] := by
  intro vs
  induction vs with
  | nil =>
    intro assets h a ha
    simp only [get_jdk_loop, Except.ok.injEq] at h
    subst h
    cases ha
  | cons v rest ih =>
    intro assets h a ha
    simp only [get_jdk_loop] at h
    cases hpv : processVersion env dir arch v with
    | error e => rw [hpv] at h; cases h
    | ok o =>
      rw [hpv] at h
      cases o with
      | none => exact ih assets h a ha
      | some d =>
        dsimp only at h
        cases hrest : get_jdk_loop env dir arch rest with
        | error e => rw [hrest] at h; cases h
        | ok as2 =>
          rw [hrest] at h
          dsimp only at h
          simp only [Except.ok.injEq] at h
          subst h
          cases ha with
          | head => exact processVersion_keys env dir arch v a hpv
          | tail _ hm => exact ih as2 hrest a hm

theorem extract_all_keys (env : Env) :
    ∀ assets : List Dict,
      (∀ a ∈ assets,
        dictKeys a = ["name", "checksum", "signature", "package", "path"]) →
      ∀ d ∈ extract_all env assets,
        dictKeys d = ["name", "checksum", "signature", "package", "path"] := by
  intro assets
  induction assets with
  | nil => intro _ d hd; cases hd
  | cons a rest ih =>
    intro hall d hd
    simp only [extract_all] at hd
    cases hx : env.extract (dictGetD a "path") with
    | error e =>
      rw [hx] at hd
      exact ih (fun x hxm => hall x (List.mem_cons_of_mem a hxm)) d hd
    | ok p =>
      rw [hx] at hd
      dsimp only at hd
      cases hd with
      | head =>
        have hka : dictKeys a
            = ["name", "checksum", "signature", "package", "path"] :=
          hall a (List.mem_cons_self a rest)
        rw [dictKeys_set_of_mem "path" p a (by rw [hka]; decide), hka]
      | tail _ hm =>
        exact ih (fun x hxm => hall x (List.mem_cons_of_mem a hxm)) d hm

/-- C9 counterexample: a concrete successful run emits objects whose
field list is `name`, `checksum`, `signature`, `package`, `path` — the
temporary-directory path of the downloaded package is carried into the
output under the extra key `package`, which is not among the four fields
the claim allows. -/
theorem output_contains_package_field :
    main_run envC "x86_64" "/dst" = Except.ok [dOutC, dOutC]
    ∧ dictKeys dOutC = ["name", "checksum", "signature", "package", "path"]
    ∧ "package" ∉ (["name", "checksum", "signature", "path"] : List String) := by
  refine ⟨by decide, by decide, by decide⟩

/-- C9 amended: every object of the emitted JSON output has exactly the
fields `name`, `checksum`, `signature`, `package` and `path`, in that
order — the four fields of the claim plus the `package` key holding the
temporary local path of the downloaded package. -/
theorem output_field_schema :
    ∀ (env : Env) (machine dir : String) (out : List Dict),
      main_run env machine dir = Except.ok out →
      ∀ d ∈ out,
        dictKeys d = ["name", "checksum", "signature", "package", "path"] := by
  intro env machine dir out h d hd
  unfold main_run at h
  cases hg : get_jdk env machine dir with
  | error e => rw [hg] at h; cases h
  | ok assets =>
    rw [hg] at h
    dsimp only at h
    simp only [Except.ok.injEq] at h
    subst h
    unfold get_jdk at hg
    cases hm : architecture_map machine with
    | none => rw [hm] at hg; cases hg
    | some arch =>
      rw [hm] at hg
      exact extract_all_keys env assets
        (fun a ha => get_jdk_loop_keys env dir arch java_versions assets hg a ha)
        d hd

/-- Witness for the amended C9 on the concrete run under `envC`. -/
theorem output_field_schema_witness :
    dictKeys dOutC = ["name", "checksum", "signature", "package", "path"] :=
  output_field_schema envC "x86_64" "/dst" [dOutC, dOutC] (by decide)
    dOutC (by decide)
